import Mathlib

/-!
Verification of the subtitle interchange engine of this repository
(src/srt_github.py, src/LearnEnglishBySubtitle.py) against its
natural-language specification.

Strings are modelled as `List Char` (the Python code is Python 2; its `str`
values here are sequences of characters).  Python `datetime.timedelta` is
modelled exactly by its total count of microseconds (`Timedelta`), with the
normalized `days` / `seconds` / `microseconds` components recovered through
floor division and Euclidean remainder, matching the CPython normalization
(`0 <= seconds < 86400`, `0 <= microseconds < 1000000`).  Fallible Python
code (raising `ValueError`, `SRTParseError`, `TypeError`, `AttributeError`)
is modelled with `Except`.
-/

namespace SrtRepo

/-! ### Decimal digits -/

/-- The character for a decimal digit (only applied to values below 10). -/
def digitChar : Nat → Char
  | 0 => '0' | 1 => '1' | 2 => '2' | 3 => '3' | 4 => '4'
  | 5 => '5' | 6 => '6' | 7 => '7' | 8 => '8' | 9 => '9'
  | _ => '?'

/-- Numeric value of a digit character. -/
def charToDigit (c : Char) : Nat := c.toNat - 48

/-- Is `c` one of the ASCII digits 0-9? -/
def isDigitChar (c : Char) : Bool := 48 ≤ c.toNat && c.toNat ≤ 57

/-- Fuel-bounded decimal rendering of a natural number, most significant
digit first.  The fuel is always at least the value, which suffices. -/
def natDigitsAux : Nat → Nat → List Char
  | 0, _ => []
  | fuel + 1, n =>
    if n < 10 then [digitChar n]
    else natDigitsAux fuel (n / 10) ++ [digitChar (n % 10)]

/-- Decimal rendering of a natural number (the output of Python `%d` for a
non-negative integer). -/
def natDigits (n : Nat) : List Char := natDigitsAux (n + 1) n

/-- Value of a string of decimal digits read left to right (the accepting
path of Python `int`). -/
def digitsToNat (l : List Char) : Nat :=
  l.foldl (fun a c => a * 10 + charToDigit c) 0

theorem charToDigit_digitChar {d : Nat} (h : d < 10) :
    charToDigit (digitChar d) = d := by
  interval_cases d <;> rfl

theorem isDigitChar_digitChar {d : Nat} (h : d < 10) :
    isDigitChar (digitChar d) = true := by
  interval_cases d <;> rfl

theorem natDigitsAux_readBack :
    ∀ fuel n, n < fuel → digitsToNat (natDigitsAux fuel n) = n := by
  intro fuel
  induction fuel with
  | zero => intro n h; omega
  | succ f ih =>
    intro n h
    by_cases h10 : n < 10
    · simp [natDigitsAux, h10, digitsToNat, charToDigit_digitChar h10]
    · have hd : n / 10 < f := by omega
      simp only [natDigitsAux, h10, if_false, digitsToNat, List.foldl_append]
      have hrec := ih (n / 10) hd
      simp only [digitsToNat] at hrec
      rw [hrec]
      simp [charToDigit_digitChar (Nat.mod_lt n (by norm_num) : n % 10 < 10)]
      omega

theorem natDigits_readBack (n : Nat) : digitsToNat (natDigits n) = n :=
  natDigitsAux_readBack (n + 1) n (Nat.lt_succ_self n)

theorem natDigitsAux_all_digits :
    ∀ fuel n, (natDigitsAux fuel n).all isDigitChar = true := by
  intro fuel
  induction fuel with
  | zero => intro n; rfl
  | succ f ih =>
    intro n
    by_cases h10 : n < 10
    · simp [natDigitsAux, h10, isDigitChar_digitChar h10]
    · simp [natDigitsAux, h10, List.all_append, ih,
        isDigitChar_digitChar (Nat.mod_lt n (by norm_num) : n % 10 < 10)]

theorem natDigits_all_digits (n : Nat) : (natDigits n).all isDigitChar = true :=
  natDigitsAux_all_digits (n + 1) n

theorem natDigitsAux_ne_nil (fuel n : Nat) (h : n < fuel) :
    natDigitsAux fuel n ≠ [] := by
  cases fuel with
  | zero => omega
  | succ f =>
    by_cases h10 : n < 10 <;> simp [natDigitsAux, h10]

theorem natDigits_ne_nil (n : Nat) : natDigits n ≠ [] :=
  natDigitsAux_ne_nil (n + 1) n (Nat.lt_succ_self n)

theorem natDigitsAux_length_le :
    ∀ fuel n k, n < fuel → n < 10 ^ k → 1 ≤ k →
      (natDigitsAux fuel n).length ≤ k := by
  intro fuel
  induction fuel with
  | zero => intro n k h; omega
  | succ f ih =>
    intro n k h hk h1
    by_cases h10 : n < 10
    · simp [natDigitsAux, h10]; omega
    · have hge : 2 ≤ k := by
        by_contra hlt
        have : k = 1 := by omega
        subst this
        simp at hk
        omega
      have hdiv : n / 10 < 10 ^ (k - 1) := by
        have : 10 ^ k = 10 ^ (k - 1) * 10 := by
          rw [← pow_succ]
          congr 1
          omega
        omega
      simp only [natDigitsAux, h10, if_false, List.length_append,
        List.length_singleton]
      have := ih (n / 10) (k - 1) (by omega) hdiv (by omega)
      omega

/-! ### Zero-padded formatting (Python `%0wd`) -/

/-- Python `%0wd` applied to a non-negative value: zero-pad the decimal
digits on the left to a minimum total width `w`. -/
def pyFormatNat (w n : Nat) : List Char :=
  List.replicate (w - (natDigits n).length) '0' ++ natDigits n

/-- Python `%0wd` for an arbitrary integer: a negative value gets its minus
sign first and the zero padding is applied to the remaining width. -/
def pyFormatInt (w : Nat) (n : Int) : List Char :=
  if n < 0 then '-' :: pyFormatNat (w - 1) n.natAbs else pyFormatNat w n.toNat

theorem digitsToNat_replicate_zero (k : Nat) (l : List Char) :
    digitsToNat (List.replicate k '0' ++ l) = digitsToNat l := by
  induction k with
  | zero => rfl
  | succ m ih =>
    simp only [List.replicate_succ, List.cons_append, digitsToNat,
      List.foldl_cons] at *
    simp only [charToDigit] at *
    simpa using ih

theorem digitsToNat_pyFormatNat (w n : Nat) :
    digitsToNat (pyFormatNat w n) = n := by
  rw [pyFormatNat, digitsToNat_replicate_zero, natDigits_readBack]

theorem pyFormatNat_all_digits (w n : Nat) :
    (pyFormatNat w n).all isDigitChar = true := by
  simp only [pyFormatNat, List.all_append, natDigits_all_digits,
    Bool.and_true]
  induction w - (natDigits n).length with
  | zero => rfl
  | succ m _ => simp [List.replicate_succ, isDigitChar]

theorem pyFormatNat_length (w n : Nat) :
    (pyFormatNat w n).length = max w (natDigits n).length := by
  simp only [pyFormatNat, List.length_append, List.length_replicate]
  omega

theorem pyFormatNat_length_of_lt {n : Nat} (w : Nat) (hw : 1 ≤ w)
    (h : n < 10 ^ w) : (pyFormatNat w n).length = w := by
  rw [pyFormatNat_length]
  have := natDigitsAux_length_le (n + 1) n w (Nat.lt_succ_self n) h hw
  simp only [natDigits] at *
  omega

theorem pyFormatNat_length_ge (w n : Nat) : w ≤ (pyFormatNat w n).length := by
  rw [pyFormatNat_length]; omega

theorem pyFormatNat_ne_nil (w n : Nat) : pyFormatNat w n ≠ [] := by
  intro h
  rcases List.append_eq_nil.mp h with ⟨-, h2⟩
  exact natDigits_ne_nil n h2

/-! ### Python timedelta -/

/-- Python `datetime.timedelta`, modelled exactly by its total number of
microseconds.  CPython normalizes a timedelta into `days`, `seconds` and
`microseconds` components with `0 <= seconds < 86400` and
`0 <= microseconds < 1000000`; those components are recovered below with
floor division and Euclidean remainder, which agree with Python `//`/`%`. -/
structure Timedelta where
  us : Int
deriving DecidableEq, Repr

/-- The normalized `days` component of a timedelta. -/
def Timedelta.days (d : Timedelta) : Int := d.us.fdiv 86400000000

/-- The normalized `seconds` component (in `[0, 86400)`). -/
def Timedelta.seconds (d : Timedelta) : Int := (d.us.fdiv 1000000).emod 86400

/-- The normalized `microseconds` component (in `[0, 1000000)`). -/
def Timedelta.microseconds (d : Timedelta) : Int := d.us.emod 1000000

/-- Python `timedelta(hours=h, minutes=m, seconds=s, milliseconds=ms)` for
the non-negative field values produced by the timestamp parser. -/
def timedeltaHMSms (h m s ms : Nat) : Timedelta :=
  ⟨(((h * 3600 + m * 60 + s) * 1000 + ms : Nat) : Int) * 1000⟩

theorem natCast_fdiv (m n : Nat) :
    ((m : Int)).fdiv (n : Int) = ((m / n : Nat) : Int) := by
  rw [Int.fdiv_eq_ediv _ (by positivity)]
  push_cast
  ring

theorem natCast_emod (m n : Nat) :
    ((m : Int)).emod (n : Int) = ((m % n : Nat) : Int) := by
  show (m : Int) % (n : Int) = _
  push_cast
  ring

/-! ### Timestamp codec (src/srt_github.py) -/

/-- `TS_LEN` from the source: the minimum timestamp length. -/
def TS_LEN : Nat := 12

/-- Failures of `srt_timestamp_to_timedelta`.  Both surface as Python
`ValueError`: `tooShort` is the explicitly raised
"Expected timestamp length >= 12" error (carrying the offending length),
`nonNumeric` models `int()` rejecting a sliced field. -/
inductive TsError where
  | tooShort : Nat → TsError
  | nonNumeric : TsError
deriving DecidableEq, Repr

/-- Python `int(text)` restricted to the plain-digit forms that occur in
this program (the model rejects signed or whitespace-padded forms, which
no theorem below exercises; `int` of a nonempty all-digit string is its
decimal value, anything else is a `ValueError`). -/
def pyInt (l : List Char) : Except TsError Nat :=
  if l.isEmpty then .error .nonNumeric
  else if l.all isDigitChar then .ok (digitsToNat l)
  else .error .nonNumeric

/-- `srt_timestamp_to_timedelta` from the source: reject inputs shorter
than 12 characters, then slice `ts[:-10]`, `ts[-9:-7]`, `ts[-6:-4]` and
`ts[-3:]` (anchored from the right, so the hour field may be wider than
two digits), convert each slice with `int`, and build the timedelta.  The
three separator positions are never inspected and no field is
bounds-checked. -/
def srt_timestamp_to_timedelta (ts : List Char) : Except TsError Timedelta :=
  if ts.length < TS_LEN then .error (.tooShort ts.length)
  else
    match pyInt (ts.take (ts.length - 10)) with
    | .error e => .error e
    | .ok hrs =>
      match pyInt ((ts.drop (ts.length - 9)).take 2) with
      | .error e => .error e
      | .ok mins =>
        match pyInt ((ts.drop (ts.length - 6)).take 2) with
        | .error e => .error e
        | .ok secs =>
          match pyInt (ts.drop (ts.length - 3)) with
          | .error e => .error e
          | .ok msecs => .ok (timedeltaHMSms hrs mins secs msecs)

/-- `timedelta_to_srt_timestamp` from the source: split the normalized
`seconds` component with `divmod`, add `days * 24` to the hours, take the
millisecond part of `microseconds`, and render
`'%02d:%02d:%02d,%03d'`. -/
def timedelta_to_srt_timestamp (d : Timedelta) : List Char :=
  -- hrs, secs_remainder = divmod(seconds, 3600); hrs += days * 24
  -- mins, secs = divmod(secs_remainder, 60); msecs = microseconds // 1000
  pyFormatInt 2 (d.seconds.fdiv 3600 + d.days * 24) ++ ':' ::
    pyFormatInt 2 ((d.seconds.emod 3600).fdiv 60) ++ ':' ::
    pyFormatInt 2 ((d.seconds.emod 3600).emod 60) ++ ',' ::
    pyFormatInt 3 (d.microseconds.fdiv 1000)

theorem append_drop_len_add (l1 l2 : List Char) (k : Nat) :
    (l1 ++ l2).drop (l1.length + k) = l2.drop k := by
  rw [← List.drop_drop, List.drop_left]

theorem pyInt_ok {l : List Char} (hne : l ≠ []) (hd : l.all isDigitChar = true) :
    pyInt l = .ok (digitsToNat l) := by
  simp [pyInt, hne, hd]

/-- Parsing a timestamp that has the exact shape
`H ++ ":" ++ M ++ ":" ++ S ++ "," ++ MS` with an at-least-two-digit hour
field and two/two/three digit minute, second and millisecond fields
succeeds and reads the four fields back. -/
theorem srt_timestamp_to_timedelta_of_shape (H M S MS : List Char)
    (hH : 2 ≤ H.length) (hHd : H.all isDigitChar = true)
    (hM : M.length = 2) (hMd : M.all isDigitChar = true)
    (hS : S.length = 2) (hSd : S.all isDigitChar = true)
    (hMS : MS.length = 3) (hMSd : MS.all isDigitChar = true) :
    srt_timestamp_to_timedelta (H ++ ':' :: M ++ ':' :: S ++ ',' :: MS) =
      .ok (timedeltaHMSms (digitsToNat H) (digitsToNat M) (digitsToNat S)
        (digitsToNat MS)) := by
  obtain ⟨m0, m1, rfl⟩ := List.length_eq_two.mp hM
  obtain ⟨s0, s1, rfl⟩ := List.length_eq_two.mp hS
  obtain ⟨x0, x1, x2, rfl⟩ := List.length_eq_three.mp hMS
  have hlen : (H ++ ':' :: [m0, m1] ++ ':' :: [s0, s1] ++
      ',' :: [x0, x1, x2]).length = H.length + 10 := by
    simp
    try omega
  have hshape : H ++ ':' :: [m0, m1] ++ ':' :: [s0, s1] ++ ',' :: [x0, x1, x2]
      = H ++ (':' :: [m0, m1] ++ ':' :: [s0, s1] ++ ',' :: [x0, x1, x2]) := by
    simp
  rw [srt_timestamp_to_timedelta, hlen]
  have hnotlt : ¬ (H.length + 10 < TS_LEN) := by
    simp only [TS_LEN]
    omega
  rw [if_neg hnotlt]
  have htake : (H ++ ':' :: [m0, m1] ++ ':' :: [s0, s1] ++
      ',' :: [x0, x1, x2]).take (H.length + 10 - 10) = H := by
    rw [hshape]
    simp only [Nat.add_sub_cancel]
    exact List.take_left H _
  have hdropM : ((H ++ ':' :: [m0, m1] ++ ':' :: [s0, s1] ++
      ',' :: [x0, x1, x2]).drop (H.length + 10 - 9)).take 2 = [m0, m1] := by
    rw [hshape, show H.length + 10 - 9 = H.length + 1 from by omega,
      append_drop_len_add]
    try rfl
  have hdropS : ((H ++ ':' :: [m0, m1] ++ ':' :: [s0, s1] ++
      ',' :: [x0, x1, x2]).drop (H.length + 10 - 6)).take 2 = [s0, s1] := by
    rw [hshape, show H.length + 10 - 6 = H.length + 4 from by omega,
      append_drop_len_add]
    try rfl
  have hdropMS : (H ++ ':' :: [m0, m1] ++ ':' :: [s0, s1] ++
      ',' :: [x0, x1, x2]).drop (H.length + 10 - 3) = [x0, x1, x2] := by
    rw [hshape, show H.length + 10 - 3 = H.length + 7 from by omega,
      append_drop_len_add]
    try rfl
  rw [htake, hdropM, hdropS, hdropMS]
  have hHne : H ≠ [] := by
    intro h
    rw [h] at hH
    simp at hH
  rw [pyInt_ok hHne hHd, pyInt_ok (by simp) hMd, pyInt_ok (by simp) hSd,
    pyInt_ok (by simp) hMSd]

theorem pyFormatInt_natCast (w n : Nat) :
    pyFormatInt w ((n : Nat) : Int) = pyFormatNat w n := by
  rw [pyFormatInt, if_neg (by omega)]
  simp

/-- The four formatted fields of a non-negative millisecond duration. -/
theorem timedelta_to_srt_timestamp_ms (m : Nat) :
    timedelta_to_srt_timestamp ⟨(m : Int) * 1000⟩ =
      pyFormatNat 2 (m / 3600000) ++ ':' ::
      pyFormatNat 2 (m / 60000 % 60) ++ ':' ::
      pyFormatNat 2 (m / 1000 % 60) ++ ',' ::
      pyFormatNat 3 (m % 1000) := by
  have hsec : Timedelta.seconds ⟨(m : Int) * 1000⟩ =
      ((m / 1000 % 86400 : Nat) : Int) := by
    rw [Timedelta.seconds, Int.fdiv_eq_ediv _ (by norm_num)]
    show ((m : Int) * 1000) / 1000000 % 86400 = _
    omega
  have hdays : Timedelta.days ⟨(m : Int) * 1000⟩ =
      ((m / 86400000 : Nat) : Int) := by
    rw [Timedelta.days, Int.fdiv_eq_ediv _ (by norm_num)]
    show ((m : Int) * 1000) / 86400000000 = _
    omega
  have hmicro : Timedelta.microseconds ⟨(m : Int) * 1000⟩ =
      ((m % 1000 * 1000 : Nat) : Int) := by
    rw [Timedelta.microseconds]
    show ((m : Int) * 1000) % 1000000 = _
    omega
  rw [timedelta_to_srt_timestamp, hsec, hdays, hmicro]
  have hhrs : (((m / 1000 % 86400 : Nat) : Int)).fdiv 3600 +
      ((m / 86400000 : Nat) : Int) * 24 = ((m / 3600000 : Nat) : Int) := by
    rw [Int.fdiv_eq_ediv _ (by norm_num)]
    omega
  have hmins : ((((m / 1000 % 86400 : Nat) : Int)).emod 3600).fdiv 60 =
      ((m / 60000 % 60 : Nat) : Int) := by
    rw [Int.fdiv_eq_ediv _ (by norm_num)]
    show ((m / 1000 % 86400 : Nat) : Int) % 3600 / 60 = _
    omega
  have hsecs : ((((m / 1000 % 86400 : Nat) : Int)).emod 3600).emod 60 =
      ((m / 1000 % 60 : Nat) : Int) := by
    show ((m / 1000 % 86400 : Nat) : Int) % 3600 % 60 = _
    omega
  have hmsecs : (((m % 1000 * 1000 : Nat) : Int)).fdiv 1000 =
      ((m % 1000 : Nat) : Int) := by
    rw [Int.fdiv_eq_ediv _ (by norm_num)]
    omega
  rw [hhrs, hmins, hsecs, hmsecs, pyFormatInt_natCast, pyFormatInt_natCast,
    pyFormatInt_natCast, pyFormatInt_natCast]

theorem pyFormatNat_length_two {n : Nat} (h : n < 100) :
    (pyFormatNat 2 n).length = 2 := by
  refine pyFormatNat_length_of_lt 2 (by norm_num) ?_
  have : (10 : Nat) ^ 2 = 100 := by norm_num
  omega

theorem pyFormatNat_length_three {n : Nat} (h : n < 1000) :
    (pyFormatNat 3 n).length = 3 := by
  refine pyFormatNat_length_of_lt 3 (by norm_num) ?_
  have : (10 : Nat) ^ 3 = 1000 := by norm_num
  omega

set_option maxRecDepth 8000 in
/-- C3.  For every duration expressible in the timestamp format
(non-negative, millisecond resolution — here `m` milliseconds), parsing the
text produced by formatting it yields the same duration:
`srt_timestamp_to_timedelta (timedelta_to_srt_timestamp d) = d`. -/
theorem c3_codec_round_trip (m : Nat) :
    srt_timestamp_to_timedelta
        (timedelta_to_srt_timestamp ⟨(m : Int) * 1000⟩) =
      .ok ⟨(m : Int) * 1000⟩ := by
  rw [timedelta_to_srt_timestamp_ms,
    srt_timestamp_to_timedelta_of_shape _ _ _ _
      (pyFormatNat_length_ge 2 _) (pyFormatNat_all_digits 2 _)
      (pyFormatNat_length_two (by omega)) (pyFormatNat_all_digits 2 _)
      (pyFormatNat_length_two (by omega)) (pyFormatNat_all_digits 2 _)
      (pyFormatNat_length_three (by omega)) (pyFormatNat_all_digits 3 _),
    digitsToNat_pyFormatNat, digitsToNat_pyFormatNat, digitsToNat_pyFormatNat,
    digitsToNat_pyFormatNat]
  rw [timedeltaHMSms]
  congr 1
  congr 1
  omega

instance exceptDecidableEq {ε α : Type} [DecidableEq ε] [DecidableEq α] :
    DecidableEq (Except ε α) := fun
  | .error a, .error b =>
    match decEq a b with
    | isTrue h => isTrue (by rw [h])
    | isFalse h => isFalse (by intro hh; injection hh; contradiction)
  | .error _, .ok _ => isFalse (by intro h; exact Except.noConfusion h)
  | .ok _, .error _ => isFalse (by intro h; exact Except.noConfusion h)
  | .ok a, .ok b =>
    match decEq a b with
    | isTrue h => isTrue (by rw [h])
    | isFalse h => isFalse (by intro hh; injection hh; contradiction)

/-! ### C8: parser failure and permissiveness -/

/-- The four positional fields of a timestamp string are all numeric. -/
def tsFieldsNumeric (ts : List Char) : Bool :=
  (ts.take (ts.length - 10)).all isDigitChar &&
  ((ts.drop (ts.length - 9)).take 2).all isDigitChar &&
  ((ts.drop (ts.length - 6)).take 2).all isDigitChar &&
  (ts.drop (ts.length - 3)).all isDigitChar

theorem pyInt_error_eq {l : List Char} {e : TsError}
    (h : pyInt l = .error e) : e = .nonNumeric := by
  rw [pyInt] at h
  split at h
  · injection h with h
    exact h.symm
  · split at h
    · exact absurd h (by simp)
    · injection h with h
      exact h.symm

/-- C8.  The length guard error is raised exactly on inputs shorter than
12 characters; any input of length at least 12 whose hour field and three
trailing positional fields are numeric is accepted and converted
positionally (no calendar bounds check), as the 99-minute example
shows. -/
theorem c8_length_guard_and_permissive :
    (∀ ts : List Char,
      (∃ k, srt_timestamp_to_timedelta ts = .error (.tooShort k)) ↔
        ts.length < TS_LEN) ∧
    (∀ ts : List Char, TS_LEN ≤ ts.length → tsFieldsNumeric ts = true →
      srt_timestamp_to_timedelta ts =
        .ok (timedeltaHMSms
          (digitsToNat (ts.take (ts.length - 10)))
          (digitsToNat ((ts.drop (ts.length - 9)).take 2))
          (digitsToNat ((ts.drop (ts.length - 6)).take 2))
          (digitsToNat (ts.drop (ts.length - 3))))) ∧
    srt_timestamp_to_timedelta ("00:99:00,000".toList) =
      .ok ⟨5940000000⟩ := by
  refine ⟨?_, ?_, ?_⟩
  · intro ts
    constructor
    · rintro ⟨k, hk⟩
      by_contra hlen
      rw [srt_timestamp_to_timedelta, if_neg hlen] at hk
      rcases h1 : pyInt (ts.take (ts.length - 10)) with e1 | v1 <;>
        rw [h1] at hk
      · cases pyInt_error_eq h1
        exact TsError.noConfusion (Except.error.inj hk)
      rcases h2 : pyInt ((ts.drop (ts.length - 9)).take 2) with e2 | v2 <;>
        rw [h2] at hk
      · cases pyInt_error_eq h2
        exact TsError.noConfusion (Except.error.inj hk)
      rcases h3 : pyInt ((ts.drop (ts.length - 6)).take 2) with e3 | v3 <;>
        rw [h3] at hk
      · cases pyInt_error_eq h3
        exact TsError.noConfusion (Except.error.inj hk)
      rcases h4 : pyInt (ts.drop (ts.length - 3)) with e4 | v4 <;>
        rw [h4] at hk
      · cases pyInt_error_eq h4
        exact TsError.noConfusion (Except.error.inj hk)
      exact Except.noConfusion hk
    · intro hlen
      exact ⟨ts.length, by rw [srt_timestamp_to_timedelta, if_pos hlen]⟩
  · intro ts hlen hnum
    simp only [tsFieldsNumeric, Bool.and_eq_true] at hnum
    obtain ⟨⟨⟨n1, n2⟩, n3⟩, n4⟩ := hnum
    have hne1 : ¬ (ts.take (ts.length - 10)).isEmpty := by
      rw [List.isEmpty_iff_length_eq_zero]
      rw [List.length_take]
      simp only [TS_LEN] at hlen
      omega
    have hne2 : ¬ ((ts.drop (ts.length - 9)).take 2).isEmpty := by
      rw [List.isEmpty_iff_length_eq_zero]
      rw [List.length_take, List.length_drop]
      simp only [TS_LEN] at hlen
      omega
    have hne3 : ¬ ((ts.drop (ts.length - 6)).take 2).isEmpty := by
      rw [List.isEmpty_iff_length_eq_zero]
      rw [List.length_take, List.length_drop]
      simp only [TS_LEN] at hlen
      omega
    have hne4 : ¬ (ts.drop (ts.length - 3)).isEmpty := by
      rw [List.isEmpty_iff_length_eq_zero]
      rw [List.length_drop]
      simp only [TS_LEN] at hlen
      omega
    rw [srt_timestamp_to_timedelta,
      if_neg (by simp only [TS_LEN] at hlen ⊢; omega)]
    rw [show pyInt (ts.take (ts.length - 10)) =
        .ok (digitsToNat (ts.take (ts.length - 10))) from by
      simp [pyInt, hne1, n1]]
    rw [show pyInt ((ts.drop (ts.length - 9)).take 2) =
        .ok (digitsToNat ((ts.drop (ts.length - 9)).take 2)) from by
      simp [pyInt, hne2, n2]]
    rw [show pyInt ((ts.drop (ts.length - 6)).take 2) =
        .ok (digitsToNat ((ts.drop (ts.length - 6)).take 2)) from by
      simp [pyInt, hne3, n3]]
    rw [show pyInt (ts.drop (ts.length - 3)) =
        .ok (digitsToNat (ts.drop (ts.length - 3))) from by
      simp [pyInt, hne4, n4]]
  · decide

/-- Witness for C8 at concrete inputs: the 11-character input fails the
length guard, and the 99-minute timestamp is accepted. -/
theorem c8_witness :
    (∃ k, srt_timestamp_to_timedelta ("0:00:00,000".toList) =
      .error (.tooShort k)) ∧
    srt_timestamp_to_timedelta ("00:99:00,000".toList) =
      .ok (timedeltaHMSms
        (digitsToNat (("00:99:00,000".toList).take 2))
        (digitsToNat ((("00:99:00,000".toList).drop 3).take 2))
        (digitsToNat ((("00:99:00,000".toList).drop 6).take 2))
        (digitsToNat (("00:99:00,000".toList).drop 9))) := by
  constructor
  · exact (c8_length_guard_and_permissive.1 _).mpr (by decide)
  · have h := c8_length_guard_and_permissive.2.1 ("00:99:00,000".toList)
      (by decide) (by decide)
    simpa using h

/-! ### Content legalization (make_legal_content) -/

/-- Python `text.split(chr 10)`: split on every newline; the result is
never empty, its parts contain no newline, and empty parts witness
leading, trailing or doubled newlines. -/
def splitNl : List Char → List (List Char)
  | [] => [[]]
  | c :: cs =>
    match splitNl cs with
    | [] => [[c]]
    | p :: ps => if c = '\n' then [] :: p :: ps else (c :: p) :: ps

/-- Python `(chr 10).join(parts)`. -/
def joinNl : List (List Char) → List Char
  | [] => []
  | [p] => p
  | p :: ps => p ++ '\n' :: joinNl ps

/-- `make_legal_content` from the source: split on newlines, drop every
empty line, rejoin with single newlines. -/
def make_legal_content (content : List Char) : List Char :=
  joinNl ((splitNl content).filter (fun l => !l.isEmpty))

theorem splitNl_ne_nil (l : List Char) : splitNl l ≠ [] := by
  cases l with
  | nil => simp [splitNl]
  | cons c cs =>
    rw [splitNl]
    rcases h : splitNl cs with - | ⟨p, ps⟩
    · simp
    · by_cases hc : c = '\n' <;> simp [hc]

theorem splitNl_no_nl {l : List Char} {p : List Char}
    (hp : p ∈ splitNl l) : '\n' ∉ p := by
  induction l generalizing p with
  | nil =>
    simp [splitNl] at hp
    simp [hp]
  | cons c cs ih =>
    rw [splitNl] at hp
    rcases h : splitNl cs with - | ⟨q, qs⟩
    · exact absurd h (splitNl_ne_nil cs)
    · rw [h] at hp
      by_cases hc : c = '\n'
      · simp only [hc, if_pos rfl] at hp
        rcases List.mem_cons.mp hp with rfl | hmem
        · simp
        · exact ih (h ▸ hmem)
      · simp only [if_neg hc] at hp
        rcases List.mem_cons.mp hp with rfl | hmem
        · intro hin
          rcases List.mem_cons.mp hin with rfl | hin2
          · exact hc rfl
          · exact ih (h ▸ List.mem_cons_self q qs) hin2
        · exact ih (h ▸ List.mem_cons.mpr (Or.inr hmem))

theorem splitNl_append_no_nl {p : List Char} (hp : '\n' ∉ p)
    (l : List Char) :
    splitNl (p ++ l) = (p ++ (splitNl l).headI) :: (splitNl l).tail := by
  induction p with
  | nil =>
    simp only [List.nil_append]
    rcases h : splitNl l with - | ⟨q, qs⟩
    · exact absurd h (splitNl_ne_nil l)
    · simp
  | cons c p ih =>
    have hc : c ≠ '\n' := by
      intro hh
      exact hp (hh ▸ List.mem_cons_self c p)
    have hp2 : '\n' ∉ p := fun hh => hp (List.mem_cons.mpr (Or.inr hh))
    rw [List.cons_append, splitNl, ih hp2]
    simp [hc]

theorem splitNl_cons_nl (l : List Char) :
    splitNl ('\n' :: l) = [] :: splitNl l := by
  rw [splitNl]
  rcases h : splitNl l with - | ⟨r, rs⟩
  · exact absurd h (splitNl_ne_nil l)
  · simp

theorem splitNl_joinNl :
    ∀ (parts : List (List Char)), parts ≠ [] →
      (∀ p ∈ parts, '\n' ∉ p) →
      splitNl (joinNl parts) = parts := by
  intro parts
  induction parts with
  | nil => intro h; exact absurd rfl h
  | cons q rest ih =>
    intro _ hfree
    cases rest with
    | nil =>
      have h := splitNl_append_no_nl (hfree q (List.mem_cons_self q [])) []
      simpa [splitNl] using h
    | cons q2 rest2 =>
      have hIH := ih (by simp)
        (fun p hp => hfree p (List.mem_cons.mpr (Or.inr hp)))
      show splitNl (q ++ '\n' :: joinNl (q2 :: rest2)) = q :: q2 :: rest2
      rw [splitNl_append_no_nl (hfree q (List.mem_cons_self q _)),
        splitNl_cons_nl, hIH]
      simp

/-- No two adjacent newline characters (no blank line strictly inside). -/
def noAdjacentNl : List Char → Bool
  | [] => true
  | [_] => true
  | a :: b :: rest => !(a = '\n' && b = '\n') && noAdjacentNl (b :: rest)

/-- Legal content shape: no leading newline, no trailing newline, and no
blank line (two adjacent newlines) inside. -/
def legalShape (l : List Char) : Bool :=
  !(l.head? == some '\n') && !(l.getLast? == some '\n') && noAdjacentNl l

theorem noAdjacentNl_of_no_nl {l : List Char} (h : '\n' ∉ l) :
    noAdjacentNl l = true := by
  induction l with
  | nil => rfl
  | cons a l ih =>
    cases l with
    | nil => rfl
    | cons b r =>
      have ha : a ≠ '\n' := fun hh => h (hh ▸ List.mem_cons_self a _)
      have ht : '\n' ∉ b :: r := fun hh => h (List.mem_cons.mpr (Or.inr hh))
      simp [noAdjacentNl, ih ht]
      exact Or.inl ha

theorem noAdjacentNl_append {A B : List Char}
    (hA : noAdjacentNl A = true) (hB : noAdjacentNl B = true)
    (hjoin : A.getLast? = some '\n' → B.head? ≠ some '\n') :
    noAdjacentNl (A ++ B) = true := by
  induction A with
  | nil => simpa using hB
  | cons a A ih =>
    cases A with
    | nil =>
      cases B with
      | nil => rfl
      | cons b B2 =>
        simp only [List.singleton_append, noAdjacentNl, Bool.and_eq_true,
          Bool.not_eq_true']
        refine ⟨?_, hB⟩
        by_cases hb : b = '\n'
        · have : a ≠ '\n' := by
            intro ha
            exact hjoin (by simp [ha]) (by simp [hb])
          simp [this]
        · simp [hb]
    | cons c A2 =>
      simp only [noAdjacentNl, Bool.and_eq_true] at hA
      have := ih hA.2 (by
        intro hlast
        exact hjoin (by rw [List.getLast?_cons_cons]; exact hlast))
      simp only [List.cons_append, noAdjacentNl, Bool.and_eq_true]
      exact ⟨by simpa using hA.1, by simpa using this⟩

theorem joinNl_legal :
    ∀ (parts : List (List Char)), parts ≠ [] →
      (∀ p ∈ parts, p ≠ [] ∧ '\n' ∉ p) →
      joinNl parts ≠ [] ∧ (joinNl parts).head? ≠ some '\n' ∧
        (joinNl parts).getLast? ≠ some '\n' ∧
        noAdjacentNl (joinNl parts) = true := by
  intro parts
  induction parts with
  | nil => intro h; exact absurd rfl h
  | cons q rest ih =>
    intro _ hgood
    obtain ⟨hqne, hqfree⟩ := hgood q (List.mem_cons_self q rest)
    cases rest with
    | nil =>
      refine ⟨hqne, ?_, ?_, noAdjacentNl_of_no_nl hqfree⟩
      · intro h
        rcases q with - | ⟨c, cs⟩
        · exact hqne rfl
        · simp only [joinNl, List.head?_cons, Option.some.injEq] at h
          exact hqfree (h ▸ List.mem_cons_self c cs)
      · intro h
        have := List.mem_of_mem_getLast? (l := joinNl [q]) h
        exact hqfree (by simpa [joinNl] using this)
    | cons q2 rest2 =>
      have hrest : (q2 :: rest2 : List (List Char)) ≠ [] := by simp
      have hIH := ih hrest
        (fun p hp => hgood p (List.mem_cons.mpr (Or.inr hp)))
      obtain ⟨hJne, hJhead, hJlast, hJadj⟩ := hIH
      have hshow : joinNl (q :: q2 :: rest2) =
          q ++ '\n' :: joinNl (q2 :: rest2) := rfl
      rw [hshow]
      refine ⟨by simp [hqne], ?_, ?_, ?_⟩
      · intro h
        rcases q with - | ⟨c, cs⟩
        · exact hqne rfl
        · simp only [List.cons_append, List.head?_cons,
            Option.some.injEq] at h
          exact hqfree (h ▸ List.mem_cons_self c cs)
      · rw [List.getLast?_append_of_ne_nil q (by simp)]
        rw [show ('\n' :: joinNl (q2 :: rest2) : List Char) =
          ['\n'] ++ joinNl (q2 :: rest2) from rfl]
        rw [List.getLast?_append_of_ne_nil _ hJne]
        exact hJlast
      · refine noAdjacentNl_append (noAdjacentNl_of_no_nl hqfree) ?_ ?_
        · rcases hJ : joinNl (q2 :: rest2) with - | ⟨c, cs⟩
          · exact absurd hJ hJne
          · have hc : c ≠ '\n' := by
              intro hc
              exact hJhead (by rw [hJ, hc]; rfl)
            simp [noAdjacentNl, ← hJ, hJadj]
            exact hc
        · intro hlast
          exact absurd (List.mem_of_mem_getLast? hlast) hqfree

/-- C9.  Content legalization drops every empty line and rejoins with
single newlines: the result has no blank line and neither starts nor ends
with a newline, and the operation is idempotent. -/
theorem c9_make_legal_content (x : List Char) :
    legalShape (make_legal_content x) = true ∧
    make_legal_content (make_legal_content x) = make_legal_content x := by
  by_cases hparts : (splitNl x).filter (fun l => !l.isEmpty) = []
  · constructor
    · simp only [make_legal_content, hparts]
      rfl
    · simp only [make_legal_content, hparts]
      rfl
  · have hmem : ∀ p ∈ (splitNl x).filter (fun l => !l.isEmpty),
        p ≠ [] ∧ '\n' ∉ p := by
      intro p hp
      refine ⟨?_, splitNl_no_nl (List.mem_of_mem_filter hp)⟩
      have := List.of_mem_filter hp
      simpa using this
    constructor
    · rw [make_legal_content]
      obtain ⟨-, h1, h2, h3⟩ := joinNl_legal _ hparts hmem
      simp [legalShape, h1, h2, h3]
    · rw [make_legal_content, make_legal_content,
        splitNl_joinNl _ hparts (fun p hp => (hmem p hp).2),
        List.filter_eq_self.mpr (fun p hp => by simpa using (hmem p hp).1)]

/-! ### Block parser (parse / raise_if_not_contiguous)

The regex engine is abstracted: `SRT_REGEX.finditer(srt)` yields a list
of matches, each described by its `(start, end)` character offsets plus
its five captured groups, in scan order, non-overlapping and within
bounds (`matchChain` below records exactly these `finditer` guarantees
on the offsets).  Everything `parse` does with the matches is embedded:
the contiguity check before each match and after the last one
(`_raise_if_not_contiguous`), and the per-match subtitle construction —
whose timestamp conversion can itself raise `ValueError`, since the
regex admits timestamp fields shorter than the 12 characters the codec
requires.  `parse` itself is defined after the `Subtitle` entity; the
offset-level helpers follow here. -/

/-- `SRTParseError(expected_start, actual_start, unmatched_content)`. -/
structure SRTParseError where
  expected_start : Nat
  actual_start : Nat
  unmatched_content : List Char
deriving DecidableEq, Repr

/-- Python slice `srt[a:b]`. -/
def pySlice (l : List Char) (a b : Nat) : List Char := (l.take b).drop a

/-- `_raise_if_not_contiguous` from the source: raise with the expected
offset, the actual offset and the slice between them when they differ. -/
def raise_if_not_contiguous (srt : List Char) (expected actual : Nat) :
    Except SRTParseError Unit :=
  if expected ≠ actual then
    .error ⟨expected, actual, pySlice srt expected actual⟩
  else .ok ()

/-- The `finditer` guarantees: matches are in scan order starting at or
after `pos`, each with `start <= end`, non-overlapping, within the
input. -/
def matchChain (len : Nat) : Nat → List (Nat × Nat) → Bool
  | _, [] => true
  | pos, (s, e) :: rest => pos ≤ s && s ≤ e && e ≤ len && matchChain len e rest

/-- The matches exactly tile `[pos, len)`: each match starts where the
previous one ended and the last one ends at the end of input. -/
def tilesExactly (len : Nat) : Nat → List (Nat × Nat) → Bool
  | pos, [] => pos = len
  | pos, (s, e) :: rest => pos = s && tilesExactly len e rest

/-- The first gap left by the matches: the offset where contiguous
coverage was expected, paired with the offset where the next match
actually starts (or the end of input). -/
def firstGap (len : Nat) : Nat → List (Nat × Nat) → Option (Nat × Nat)
  | pos, [] => if pos = len then none else some (pos, len)
  | pos, (s, e) :: rest => if pos = s then firstGap len e rest else some (pos, s)

/-! ### Subtitle entity

The attributes stored by `Subtitle.__init__` (note the renamed fields:
`index_`, `start_ts_`, `start_timedelta_`, `end_ts_`, `end_timedelta_`,
`contents_`, `proprietary`).  The type of `start_ts_`/`end_ts_` depends on
the caller — `parse` and `make_a_subtitle` store timestamp strings there,
while the doctests construct subtitles holding timedeltas — so the model
is polymorphic in that slot. -/
structure Subtitle (τ : Type) where
  index_ : Int
  start_ts_ : τ
  start_timedelta_ : Timedelta
  end_ts_ : τ
  end_timedelta_ : Timedelta
  contents_ : List Char
  proprietary : Option (List Char)
deriving DecidableEq, Repr

/-- `make_a_subtitle` from the source: build a `Subtitle` whose timedelta
fields are computed by `srt_timestamp_to_timedelta` from the two timestamp
strings (arguments are evaluated left to right, so a bad start timestamp
raises before the end timestamp is parsed). -/
def make_a_subtitle (idx : Int) (start_ts : List Char)
    (contents : List Char) (end_ts : List Char)
    (prop : Option (List Char)) :
    Except TsError (Subtitle (List Char)) :=
  match srt_timestamp_to_timedelta start_ts with
  | .error e => .error e
  | .ok std =>
    match srt_timestamp_to_timedelta end_ts with
    | .error e => .error e
    | .ok etd => .ok ⟨idx, start_ts, std, end_ts, etd, contents, prop⟩

/-- Python `content.replace(CR LF, LF)`: left-to-right non-overlapping
replacement of each CR-LF pair by a lone LF. -/
def replaceCrLf : List Char → List Char
  | '\r' :: '\n' :: rest => '\n' :: replaceCrLf rest
  | c :: rest => c :: replaceCrLf rest
  | [] => []

/-- The subtitle construction performed for each match inside `parse`
(source lines 365-374): `int` the index, keep the raw timestamp strings in
`start_ts_`/`end_ts_`, store their parses in the timedelta fields, and
normalize CR-LF in the content. -/
def parse_make_subtitle (raw_index raw_start_ts raw_end_ts : List Char)
    (proprietary content : List Char) :
    Except TsError (Subtitle (List Char)) :=
  match pyInt raw_index with
  | .error e => .error e
  | .ok idx =>
    match srt_timestamp_to_timedelta raw_start_ts with
    | .error e => .error e
    | .ok std =>
      match srt_timestamp_to_timedelta raw_end_ts with
      | .error e => .error e
      | .ok etd =>
        .ok ⟨(idx : Int), raw_start_ts, std, raw_end_ts, etd,
          replaceCrLf content, some proprietary⟩

/-! ### The parse loop itself -/

/-- One `finditer` match: its `(start, end)` offsets and the five
captured groups `(idx, start_ts, end_ts, proprietary, content)`. -/
structure RegexMatch where
  mstart : Nat
  mend : Nat
  raw_index : List Char
  raw_start_ts : List Char
  raw_end_ts : List Char
  proprietary : List Char
  content : List Char
deriving DecidableEq, Repr

/-- The `(start, end)` offsets of the matches. -/
def offsets (ms : List RegexMatch) : List (Nat × Nat) :=
  ms.map (fun m => (m.mstart, m.mend))

/-- The exceptions that can abort `parse`: the contiguity
`SRTParseError`, or the `ValueError` that `int`/
`srt_timestamp_to_timedelta` raise while constructing the subtitle of a
matched block. -/
inductive ParseAbort where
  | parseError : SRTParseError → ParseAbort
  | valueError : TsError → ParseAbort
deriving DecidableEq, Repr

/-- The loop of `parse` (source lines 359-378): for each match, first
check contiguity against the expected offset, then construct the
subtitle from the captured groups (which converts both timestamps and
can raise `ValueError`), then continue with `match.end()` as the next
expected offset; after the last match, check the expected offset against
the end of input. -/
def parseMatches (srt : List Char) :
    Nat → List RegexMatch → Except ParseAbort (List (Subtitle (List Char)))
  | expected, [] =>
    match raise_if_not_contiguous srt expected srt.length with
    | .error e => .error (.parseError e)
    | .ok _ => .ok []
  | expected, m :: rest =>
    match raise_if_not_contiguous srt expected m.mstart with
    | .error e => .error (.parseError e)
    | .ok _ =>
      match parse_make_subtitle m.raw_index m.raw_start_ts m.raw_end_ts
          m.proprietary m.content with
      | .error v => .error (.valueError v)
      | .ok sub =>
        match parseMatches srt m.mend rest with
        | .error e => .error e
        | .ok tl => .ok (sub :: tl)

/-- `parse`, starting from `expected_start = 0`. -/
def parse (srt : List Char) (ms : List RegexMatch) :
    Except ParseAbort (List (Subtitle (List Char))) :=
  parseMatches srt 0 ms

/-- The subtitles of all matched blocks, when every construction
succeeds (the first conversion failure otherwise). -/
def convertSubtitles :
    List RegexMatch → Except TsError (List (Subtitle (List Char)))
  | [] => .ok []
  | m :: rest =>
    match parse_make_subtitle m.raw_index m.raw_start_ts m.raw_end_ts
        m.proprietary m.content with
    | .error e => .error e
    | .ok s =>
      match convertSubtitles rest with
      | .error e => .error e
      | .ok tl => .ok (s :: tl)

theorem parseMatches_spec (srt : List Char) :
    ∀ (ms : List RegexMatch) (pos : Nat)
      (subs : List (Subtitle (List Char))),
      matchChain srt.length pos (offsets ms) = true → pos ≤ srt.length →
      convertSubtitles ms = .ok subs →
      (tilesExactly srt.length pos (offsets ms) = true ∧
        parseMatches srt pos ms = .ok subs) ∨
      (∃ exp act, firstGap srt.length pos (offsets ms) = some (exp, act) ∧
        exp < act ∧
        parseMatches srt pos ms =
          .error (.parseError ⟨exp, act, pySlice srt exp act⟩)) := by
  intro ms
  induction ms with
  | nil =>
    intro pos subs _ hpos hconv
    have hsubs : subs = [] := (Except.ok.inj hconv).symm
    subst hsubs
    by_cases h : pos = srt.length
    · left
      refine ⟨by simp [offsets, tilesExactly, h], ?_⟩
      simp [parseMatches, raise_if_not_contiguous, h]
    · right
      refine ⟨pos, srt.length, by simp [offsets, firstGap, h], by omega, ?_⟩
      simp [parseMatches, raise_if_not_contiguous, h]
  | cons m rest ih =>
    intro pos subs hchain hpos hconv
    rw [convertSubtitles] at hconv
    rcases hc : parse_make_subtitle m.raw_index m.raw_start_ts m.raw_end_ts
        m.proprietary m.content with ce | s <;> rw [hc] at hconv
    · exact Except.noConfusion hconv
    rcases hr : convertSubtitles rest with ce | tl <;> rw [hr] at hconv
    · exact Except.noConfusion hconv
    have hsubs : subs = s :: tl := (Except.ok.inj hconv).symm
    subst hsubs
    simp only [offsets, List.map_cons, matchChain, Bool.and_eq_true,
      decide_eq_true_eq] at hchain
    obtain ⟨⟨⟨h1, h2⟩, h3⟩, h4⟩ := hchain
    by_cases h : pos = m.mstart
    · rcases ih m.mend tl (by simpa [offsets] using h4) h3 hr with
        ⟨ht, hp⟩ | ⟨exp, act, hg, hlt, hp⟩
      · left
        refine ⟨by simp [offsets, tilesExactly, h]; simpa [offsets] using ht,
          ?_⟩
        simp [parseMatches, raise_if_not_contiguous, h, hc, hp]
      · right
        refine ⟨exp, act,
          by simp only [offsets, List.map_cons, firstGap, if_pos h]
             simpa [offsets] using hg, hlt, ?_⟩
        simp [parseMatches, raise_if_not_contiguous, h, hc, hp]
    · right
      refine ⟨pos, m.mstart, by simp [offsets, firstGap, h], by omega, ?_⟩
      simp [parseMatches, raise_if_not_contiguous, h]

/-- C1 counterexample.  A match list admitted by the match grammar that
tiles the whole input gap-free, yet whose captured start timestamp
`0:0:0,0` is shorter than 12 characters: the contiguity check passes,
and `parse` aborts with the codec `ValueError` — neither yielding a
tiling parse nor raising `SRTParseError`, refuting the claimed
dichotomy. -/
theorem c1_counterexample :
    matchChain ("1\n0:0:0,0 --> 0:0:0,5\nx\n".toList).length 0
      (offsets [⟨0, 24, "1".toList, "0:0:0,0".toList, "0:0:0,5".toList,
        [], "x".toList⟩]) = true ∧
    tilesExactly ("1\n0:0:0,0 --> 0:0:0,5\nx\n".toList).length 0
      (offsets [⟨0, 24, "1".toList, "0:0:0,0".toList, "0:0:0,5".toList,
        [], "x".toList⟩]) = true ∧
    parse ("1\n0:0:0,0 --> 0:0:0,5\nx\n".toList)
      [⟨0, 24, "1".toList, "0:0:0,0".toList, "0:0:0,5".toList,
        [], "x".toList⟩] =
      .error (.valueError (.tooShort 7)) := by
  refine ⟨by decide, by decide, by decide⟩

/-- C1 amended.  Provided every matched block's captured timestamps
convert successfully, `parse` either yields the subtitles of matches
that exactly tile the input, or raises `SRTParseError` carrying the
expected offset, the actual offset, and an unmatched-content field equal
exactly to the gap text; a matched block whose timestamp fails
conversion instead aborts the parse with the codec `ValueError` even
when the matches tile (see the counterexample). -/
theorem c1_amended_parse_contiguity (srt : List Char)
    (ms : List RegexMatch) (subs : List (Subtitle (List Char)))
    (h : matchChain srt.length 0 (offsets ms) = true)
    (hconv : convertSubtitles ms = .ok subs) :
    (tilesExactly srt.length 0 (offsets ms) = true ∧
      parse srt ms = .ok subs) ∨
    (∃ exp act, firstGap srt.length 0 (offsets ms) = some (exp, act) ∧
      exp < act ∧
      parse srt ms = .error (.parseError ⟨exp, act, pySlice srt exp act⟩)) :=
  parseMatches_spec srt ms 0 subs h (Nat.zero_le _) hconv

/-- Witness for C1 amended: a gap between the two well-formed matched
blocks is reported with exactly the gap text as unmatched content. -/
theorem c1_amended_witness :
    (tilesExactly ("abcde".toList).length 0
      (offsets [⟨0, 2, "1".toList, "00:00:01,000".toList,
        "00:00:02,000".toList, [], "x".toList⟩,
        ⟨3, 5, "2".toList, "00:00:03,000".toList,
        "00:00:04,000".toList, [], "y".toList⟩]) = true ∧
      parse ("abcde".toList)
        [⟨0, 2, "1".toList, "00:00:01,000".toList,
          "00:00:02,000".toList, [], "x".toList⟩,
          ⟨3, 5, "2".toList, "00:00:03,000".toList,
          "00:00:04,000".toList, [], "y".toList⟩] =
        .ok [⟨1, "00:00:01,000".toList, ⟨1000000⟩,
            "00:00:02,000".toList, ⟨2000000⟩, "x".toList, some []⟩,
          ⟨2, "00:00:03,000".toList, ⟨3000000⟩,
            "00:00:04,000".toList, ⟨4000000⟩, "y".toList, some []⟩]) ∨
    (∃ exp act, firstGap ("abcde".toList).length 0
        (offsets [⟨0, 2, "1".toList, "00:00:01,000".toList,
          "00:00:02,000".toList, [], "x".toList⟩,
          ⟨3, 5, "2".toList, "00:00:03,000".toList,
          "00:00:04,000".toList, [], "y".toList⟩]) = some (exp, act) ∧
      exp < act ∧
      parse ("abcde".toList)
        [⟨0, 2, "1".toList, "00:00:01,000".toList,
          "00:00:02,000".toList, [], "x".toList⟩,
          ⟨3, 5, "2".toList, "00:00:03,000".toList,
          "00:00:04,000".toList, [], "y".toList⟩] =
        .error (.parseError ⟨exp, act,
          pySlice ("abcde".toList) exp act⟩)) :=
  c1_amended_parse_contiguity ("abcde".toList)
    [⟨0, 2, "1".toList, "00:00:01,000".toList,
      "00:00:02,000".toList, [], "x".toList⟩,
      ⟨3, 5, "2".toList, "00:00:03,000".toList,
      "00:00:04,000".toList, [], "y".toList⟩]
    [⟨1, "00:00:01,000".toList, ⟨1000000⟩,
        "00:00:02,000".toList, ⟨2000000⟩, "x".toList, some []⟩,
      ⟨2, "00:00:03,000".toList, ⟨3000000⟩,
        "00:00:04,000".toList, ⟨4000000⟩, "y".toList, some []⟩]
    (by decide) (by decide)

/-- C10.  Every subtitle produced by `make_a_subtitle` or by the block
parser satisfies the consistency invariant: its in-memory timedelta
fields equal the parse of its timestamp-string fields. -/
theorem c10_timedelta_consistency :
    (∀ (idx : Int) (sts cts ets : List Char) (prop : Option (List Char))
        (s : Subtitle (List Char)),
      make_a_subtitle idx sts cts ets prop = .ok s →
      srt_timestamp_to_timedelta s.start_ts_ = .ok s.start_timedelta_ ∧
      srt_timestamp_to_timedelta s.end_ts_ = .ok s.end_timedelta_) ∧
    (∀ (ri sts ets pr ct : List Char) (s : Subtitle (List Char)),
      parse_make_subtitle ri sts ets pr ct = .ok s →
      srt_timestamp_to_timedelta s.start_ts_ = .ok s.start_timedelta_ ∧
      srt_timestamp_to_timedelta s.end_ts_ = .ok s.end_timedelta_) := by
  constructor
  · intro idx sts cts ets prop s h
    rw [make_a_subtitle] at h
    rcases h1 : srt_timestamp_to_timedelta sts with e1 | v1 <;> rw [h1] at h
    · exact Except.noConfusion h
    rcases h2 : srt_timestamp_to_timedelta ets with e2 | v2 <;> rw [h2] at h
    · exact Except.noConfusion h
    cases Except.ok.inj h
    exact ⟨h1, h2⟩
  · intro ri sts ets pr ct s h
    rw [parse_make_subtitle] at h
    rcases h0 : pyInt ri with e0 | v0 <;> rw [h0] at h
    · exact Except.noConfusion h
    rcases h1 : srt_timestamp_to_timedelta sts with e1 | v1 <;> rw [h1] at h
    · exact Except.noConfusion h
    rcases h2 : srt_timestamp_to_timedelta ets with e2 | v2 <;> rw [h2] at h
    · exact Except.noConfusion h
    cases Except.ok.inj h
    exact ⟨h1, h2⟩

/-- Witness for C10: both constructors applied at concrete arguments
satisfy the invariant. -/
theorem c10_witness :
    (srt_timestamp_to_timedelta
        (Subtitle.start_ts_ (τ := List Char)
          ⟨1, "00:00:01,000".toList, ⟨1000000⟩, "00:00:02,000".toList,
            ⟨2000000⟩, "x".toList, none⟩) =
      .ok (Subtitle.start_timedelta_ (τ := List Char)
          ⟨1, "00:00:01,000".toList, ⟨1000000⟩, "00:00:02,000".toList,
            ⟨2000000⟩, "x".toList, none⟩)) ∧
    (srt_timestamp_to_timedelta
        (Subtitle.end_ts_ (τ := List Char)
          ⟨1, "00:00:01,000".toList, ⟨1000000⟩, "00:00:02,000".toList,
            ⟨2000000⟩, "x".toList, none⟩) =
      .ok (Subtitle.end_timedelta_ (τ := List Char)
          ⟨1, "00:00:01,000".toList, ⟨1000000⟩, "00:00:02,000".toList,
            ⟨2000000⟩, "x".toList, none⟩)) :=
  c10_timedelta_consistency.1 1 ("00:00:01,000".toList) ("x".toList)
    ("00:00:02,000".toList) none _ (by decide)

/-! ### Alignment engine (LearnEnglishBySubtitle.doWork)

Python 2 floats are modelled as exact rationals; every value reaching the
comparisons below is `us / 10^6` for an integer `us`, far inside the range
where 64-bit floats are exact for the millisecond-resolution inputs of
this program. -/

/-- Python `timedelta.total_seconds()`. -/
def total_seconds (d : Timedelta) : Rat := (d.us : Rat) / 1000000

/-- `deltatime_2_timestamp` from the source:
`total_seconds() + microseconds / 1000000`.  The second operand is Python
2 integer division of the normalized microseconds component (a value in
`[0, 1000000)`) by `1000000`, hence always zero. -/
def deltatime_2_timestamp (d : Timedelta) : Rat :=
  total_seconds d + ((d.microseconds.fdiv 1000000 : Int) : Rat)

theorem deltatime_2_timestamp_eq (d : Timedelta) :
    deltatime_2_timestamp d = (d.us : Rat) / 1000000 := by
  have h0 : d.us.emod 1000000 / 1000000 = 0 := by
    show d.us % 1000000 / 1000000 = 0
    omega
  rw [deltatime_2_timestamp, total_seconds, Timedelta.microseconds,
    Int.fdiv_eq_ediv _ (by norm_num), h0]
  simp

/-- One `matched_row` dictionary appended by the inner loop of
`doWork`. -/
structure MatchedRow where
  f_start : Rat
  f_end : Rat
  s_start : Rat
  s_end : Rat
  left_ts : Rat
  right_ts : Rat
  f_contents : List Char
  s_contents : List Char
deriving DecidableEq, Repr

/-- The comparison core of `doWork` (source lines 96-156): for every
subtitle of the first track, scan every subtitle of the second track,
compute `l_ts`/`r_ts` with the conditional expressions of the source, and
append a matched row whenever `l_ts < r_ts`; each per-first-subtitle row
list is then appended to the accumulated list (the `len > 0` guard is in
the source).  File writing is modelled separately by `writeSrt`. -/
def doWork {τ : Type} (first second : List (Subtitle τ)) :
    List MatchedRow :=
  first.foldl
    (fun all_matched_list f_val =>
      let f_start_td := deltatime_2_timestamp f_val.start_timedelta_
      let f_end_td := deltatime_2_timestamp f_val.end_timedelta_
      let matched_row_list := second.foldl
        (fun acc s_val =>
          let s_start_td := deltatime_2_timestamp s_val.start_timedelta_
          let s_end_td := deltatime_2_timestamp s_val.end_timedelta_
          let l_ts := if f_start_td ≥ s_start_td then f_start_td
            else s_start_td
          let r_ts := if f_end_td ≤ s_end_td then f_end_td else s_end_td
          if l_ts < r_ts then
            acc ++ [⟨f_start_td, f_end_td, s_start_td, s_end_td, l_ts,
              r_ts, f_val.contents_, s_val.contents_⟩]
          else acc)
        []
      if matched_row_list.length > 0 then
        all_matched_list ++ matched_row_list
      else all_matched_list)
    []

/-- An Aligned Record of the specification: overlap start, overlap end,
first-track text, second-track text (`stop` is the spec field `end`). -/
structure AlignedRecord where
  start : Rat
  stop : Rat
  first_track_text : List Char
  second_track_text : List Char
deriving DecidableEq, Repr

/-- Modelled from the wording of the specification, for comparison with
`doWork`: one record per overlapping pair, with `max` of starts and `min`
of ends, discarded when the overlap is not strictly positive. -/
def alignPair {τ : Type} (f s : Subtitle τ) : Option AlignedRecord :=
  let os := max (deltatime_2_timestamp f.start_timedelta_)
    (deltatime_2_timestamp s.start_timedelta_)
  let oe := min (deltatime_2_timestamp f.end_timedelta_)
    (deltatime_2_timestamp s.end_timedelta_)
  if os < oe then some ⟨os, oe, f.contents_, s.contents_⟩ else none

/-- Modelled from the wording of the specification: the full cross
product in first-track order, second-track order within each first-track
subtitle, with no merging, deduplication or sorting. -/
def alignSpec {τ : Type} (first second : List (Subtitle τ)) :
    List AlignedRecord :=
  (first.map (fun f => second.filterMap (alignPair f))).flatten

/-- The claim record carried by a matched row. -/
def MatchedRow.toAligned (r : MatchedRow) : AlignedRecord :=
  ⟨r.left_ts, r.right_ts, r.f_contents, r.s_contents⟩

theorem if_ge_eq_max (a b : Rat) : (if a ≥ b then a else b) = max a b := by
  by_cases h : b ≤ a
  · rw [if_pos h, max_eq_left h]
  · rw [if_neg h, max_eq_right (le_of_lt (lt_of_not_le h))]

theorem if_le_eq_min (a b : Rat) : (if a ≤ b then a else b) = min a b := by
  by_cases h : a ≤ b
  · rw [if_pos h, min_eq_left h]
  · rw [if_neg h, min_eq_right (le_of_lt (lt_of_not_le h))]

theorem foldl_append_step {α β : Type} (g : α → List β)
    (step : List β → α → List β) (hstep : ∀ acc x, step acc x = acc ++ g x) :
    ∀ (l : List α) (acc : List β),
      l.foldl step acc = acc ++ (l.map g).flatten := by
  intro l
  induction l with
  | nil => intro acc; simp
  | cons x xs ih =>
    intro acc
    rw [List.foldl_cons, hstep, ih]
    simp

theorem join_map_toList {α β : Type} (f : α → Option β) (l : List α) :
    (l.map (fun a => (f a).toList)).flatten = l.filterMap f := by
  induction l with
  | nil => rfl
  | cons x xs ih =>
    rcases h : f x with - | v <;>
      simp [List.filterMap_cons, h, ih]

/-- The row list the inner loop of `doWork` contributes for one pair. -/
def rowOf {τ : Type} (f s : Subtitle τ) : List MatchedRow :=
  let fs := deltatime_2_timestamp f.start_timedelta_
  let fe := deltatime_2_timestamp f.end_timedelta_
  let ss := deltatime_2_timestamp s.start_timedelta_
  let se := deltatime_2_timestamp s.end_timedelta_
  if (if fs ≥ ss then fs else ss) < (if fe ≤ se then fe else se) then
    [⟨fs, fe, ss, se, if fs ≥ ss then fs else ss,
      if fe ≤ se then fe else se, f.contents_, s.contents_⟩]
  else []

theorem doWork_eq {τ : Type} (first second : List (Subtitle τ)) :
    doWork first second =
      (first.map (fun f => (second.map (rowOf f)).flatten)).flatten := by
  rw [doWork]
  rw [foldl_append_step (fun f => (second.map (rowOf f)).flatten) _ ?_ first []]
  · rw [List.nil_append]
  · intro acc f
    dsimp only
    rw [foldl_append_step (rowOf f) _ ?_ second []]
    · rw [List.nil_append]
      by_cases h : ((second.map (rowOf f)).flatten).length > 0
      · rw [if_pos h]
      · rw [if_neg h]
        have : (second.map (rowOf f)).flatten = [] := by
          rcases hx : (second.map (rowOf f)).flatten with - | ⟨y, ys⟩
          · rfl
          · rw [hx] at h
            simp at h
        rw [this, List.append_nil]
    · intro acc2 s
      dsimp only
      rw [rowOf]
      by_cases h : (if deltatime_2_timestamp f.start_timedelta_ ≥
            deltatime_2_timestamp s.start_timedelta_ then
            deltatime_2_timestamp f.start_timedelta_
          else deltatime_2_timestamp s.start_timedelta_) <
          (if deltatime_2_timestamp f.end_timedelta_ ≤
            deltatime_2_timestamp s.end_timedelta_ then
            deltatime_2_timestamp f.end_timedelta_
          else deltatime_2_timestamp s.end_timedelta_)
      · rw [if_pos h, if_pos h]
      · rw [if_neg h, if_neg h, List.append_nil]

theorem rowOf_toAligned {τ : Type} (f s : Subtitle τ) :
    (rowOf f s).map MatchedRow.toAligned = (alignPair f s).toList := by
  rw [rowOf, alignPair]
  rw [if_ge_eq_max, if_le_eq_min]
  by_cases h : max (deltatime_2_timestamp f.start_timedelta_)
      (deltatime_2_timestamp s.start_timedelta_) <
      min (deltatime_2_timestamp f.end_timedelta_)
      (deltatime_2_timestamp s.end_timedelta_)
  · rw [if_pos h, if_pos h]
    rfl
  · rw [if_neg h, if_neg h]
    rfl

/-- C2.  The alignment engine emits, for the full cross product in
first-track order then second-track order, exactly one record per pair
with strictly positive overlap, whose fields are the maximum of the two
starts, the minimum of the two ends, and the two content texts; pairs
with zero-width or negative overlap give nothing, and no merging,
deduplication or sorting is applied. -/
theorem c2_alignment_cross_product {τ : Type}
    (first second : List (Subtitle τ)) :
    (doWork first second).map MatchedRow.toAligned =
      alignSpec first second := by
  have hfun : ∀ f : Subtitle τ,
      ((second.map (rowOf f)).flatten).map MatchedRow.toAligned =
        second.filterMap (alignPair f) := by
    intro f
    rw [List.map_flatten, List.map_map, ← join_map_toList (alignPair f)]
    rw [show (List.map MatchedRow.toAligned ∘ rowOf f) =
      (fun s => (alignPair f s).toList) from funext (rowOf_toAligned f)]
  rw [doWork_eq, alignSpec, List.map_flatten, List.map_map]
  rw [show (List.map MatchedRow.toAligned ∘
      fun f => (second.map (rowOf f)).flatten) =
    (fun f => second.filterMap (alignPair f)) from funext hfun]

/-! ### C7: output timestamp rendering -/

/-- Does the text have exactly the shape `HH:MM:SS,mmm` (hours two or
more digits, zero-padded two-digit minutes and seconds, three-digit
milliseconds, comma separator)?  Checked from the right, mirroring how
the format anchors its fields. -/
def checkTS (l : List Char) : Bool :=
  match l.reverse with
  | g :: f :: e :: ',' :: d :: c :: ':' :: b :: a :: ':' :: rest =>
    [a, b, c, d, e, f, g].all isDigitChar && decide (2 ≤ rest.length) &&
      rest.all isDigitChar
  | _ => false

/-- Floor of a rational (denominator is positive). -/
def ratFloor (q : Rat) : Int := q.num.fdiv (q.den : Int)

/-- The fractional decimal digits of `q` (for `0 <= q < 1`), at most
`fuel` of them. -/
def decFracDigits : Nat → Rat → List Char
  | 0, _ => []
  | fuel + 1, q =>
    if q = 0 then []
    else
      digitChar (ratFloor (q * 10)).toNat ::
        decFracDigits fuel (q * 10 - ((ratFloor (q * 10) : Int) : Rat))

/-- CPython 2 `str()` of a non-negative float whose value has an exact
decimal expansion of at most twelve fractional digits (every value the
theorems below feed to it is such): integer part, a dot, and the
fractional digits, with `0` standing for an empty fraction. -/
def pyFloatStr (q : Rat) : List Char :=
  natDigits (ratFloor q).toNat ++ '.' ::
    (if decFracDigits 12 (q - ((ratFloor q : Int) : Rat)) = [] then ['0']
     else decFracDigits 12 (q - ((ratFloor q : Int) : Rat)))

/-- One formatted line of `writeSrt`:
`'%d\n%s --> %s\n%s\n%s\n\n' % (ndx, left_ts, right_ts, f_contents,
s_contents)` — the two timestamps are interpolated with `%s`, i.e. as the
`str()` of the float seconds values stored in the matched row. -/
def writeSrtLine (ndx : Nat) (r : MatchedRow) : List Char :=
  natDigits ndx ++ '\n' :: pyFloatStr r.left_ts ++
  ' ' :: '-' :: '-' :: '>' :: ' ' :: pyFloatStr r.right_ts ++
  '\n' :: r.f_contents ++ '\n' :: r.s_contents ++ '\n' :: '\n' :: []

/-- The loop of `writeSrt`: `ndx` starts at 1 and increments per row. -/
def writeSrtRows : Nat → List MatchedRow → List Char
  | _, [] => []
  | ndx, r :: rest => writeSrtLine ndx r ++ writeSrtRows (ndx + 1) rest

/-- `writeSrt` from the source (modulo the file I/O wrapper): the
concatenation of the formatted lines. -/
def writeSrt (rows : List MatchedRow) : List Char := writeSrtRows 1 rows

theorem checkTS_format (m : Nat) :
    checkTS (timedelta_to_srt_timestamp ⟨(m : Int) * 1000⟩) = true := by
  rw [timedelta_to_srt_timestamp_ms]
  obtain ⟨m0, m1, hM⟩ :=
    List.length_eq_two.mp (pyFormatNat_length_two
      (show m / 60000 % 60 < 100 by omega))
  obtain ⟨s0, s1, hS⟩ :=
    List.length_eq_two.mp (pyFormatNat_length_two
      (show m / 1000 % 60 < 100 by omega))
  obtain ⟨x0, x1, x2, hX⟩ :=
    List.length_eq_three.mp (pyFormatNat_length_three
      (show m % 1000 < 1000 by omega))
  have hMd := pyFormatNat_all_digits 2 (m / 60000 % 60)
  have hSd := pyFormatNat_all_digits 2 (m / 1000 % 60)
  have hXd := pyFormatNat_all_digits 3 (m % 1000)
  have hHd := pyFormatNat_all_digits 2 (m / 3600000)
  have hHl := pyFormatNat_length_ge 2 (m / 3600000)
  rw [hM] at hMd
  rw [hS] at hSd
  rw [hX] at hXd
  rw [hM, hS, hX, checkTS]
  have hrev : (pyFormatNat 2 (m / 3600000) ++ ':' :: [m0, m1] ++
      ':' :: [s0, s1] ++ ',' :: [x0, x1, x2]).reverse =
      x2 :: x1 :: x0 :: ',' :: s1 :: s0 :: ':' :: m1 :: m0 :: ':' ::
        (pyFormatNat 2 (m / 3600000)).reverse := by
    simp
  rw [hrev]
  simp only [List.all_cons, List.all_nil, Bool.and_eq_true,
    decide_eq_true_eq, List.length_reverse, List.all_reverse] at *
  simp [hMd, hSd, hXd, hHd, hHl]

theorem decFracDigits_zero : ∀ fuel, decFracDigits fuel 0 = [] := by
  intro fuel
  cases fuel with
  | zero => rfl
  | succ f => simp [decFracDigits]

theorem pyFloatStr_natCast (n : Nat) :
    pyFloatStr (n : Rat) = natDigits n ++ '.' :: ['0'] := by
  have hfl : ratFloor (n : Rat) = (n : Int) := by
    rw [ratFloor, Rat.num_natCast, Rat.den_natCast,
      Int.fdiv_eq_ediv _ (by norm_num)]
    simp
  have hz : (n : Rat) - ((n : Int) : Rat) = 0 := by
    push_cast
    ring
  rw [pyFloatStr, hfl, hz, decFracDigits_zero]
  simp

/-- First track subtitle of the C7/C2 example: seconds 1 to 3. -/
def exampleFirstSub : Subtitle (List Char) :=
  ⟨1, "00:00:01,000".toList, ⟨1000000⟩, "00:00:03,000".toList,
    ⟨3000000⟩, "Hello".toList, some []⟩

/-- Second track subtitle of the C7/C2 example: seconds 2 to 4. -/
def exampleSecondSub : Subtitle (List Char) :=
  ⟨1, "00:00:02,000".toList, ⟨2000000⟩, "00:00:04,000".toList,
    ⟨4000000⟩, "Bonjour".toList, some []⟩

theorem doWork_example :
    doWork [exampleFirstSub] [exampleSecondSub] =
      [⟨1, 3, 2, 4, 2, 3, "Hello".toList, "Bonjour".toList⟩] := by
  have e1 : deltatime_2_timestamp (⟨1000000⟩ : Timedelta) = 1 := by
    rw [deltatime_2_timestamp_eq]
    norm_num
  have e2 : deltatime_2_timestamp (⟨3000000⟩ : Timedelta) = 3 := by
    rw [deltatime_2_timestamp_eq]
    norm_num
  have e3 : deltatime_2_timestamp (⟨2000000⟩ : Timedelta) = 2 := by
    rw [deltatime_2_timestamp_eq]
    norm_num
  have e4 : deltatime_2_timestamp (⟨4000000⟩ : Timedelta) = 4 := by
    rw [deltatime_2_timestamp_eq]
    norm_num
  rw [doWork_eq]
  simp only [List.map_cons, List.map_nil, List.flatten_cons,
    List.flatten_nil, List.append_nil]
  rw [rowOf]
  simp only [exampleFirstSub, exampleSecondSub, e1, e2, e3, e4]
  norm_num

theorem writeSrt_example :
    writeSrt [⟨1, 3, 2, 4, 2, 3, "Hello".toList, "Bonjour".toList⟩] =
      "1\n2.0 --> 3.0\nHello\nBonjour\n\n".toList := by
  have hp2 : pyFloatStr (2 : Rat) = '2' :: '.' :: '0' :: [] := by
    rw [show (2 : Rat) = ((2 : Nat) : Rat) from by norm_num,
      pyFloatStr_natCast]
    rfl
  have hp3 : pyFloatStr (3 : Rat) = '3' :: '.' :: '0' :: [] := by
    rw [show (3 : Rat) = ((3 : Nat) : Rat) from by norm_num,
      pyFloatStr_natCast]
    rfl
  rw [writeSrt, writeSrtRows, writeSrtRows, writeSrtLine]
  simp only [hp2, hp3]
  decide

/-- C7 counterexample.  The aligned-record writing path emits the
timestamps of the concrete overlapping pair as "2.0" and "3.0" (the
`str()` of the float seconds), which is not of the `HH:MM:SS,mmm`
shape — refuting the claim that every output path renders timestamps in
that format. -/
theorem c7_counterexample :
    writeSrt (doWork [exampleFirstSub] [exampleSecondSub]) =
      "1\n2.0 --> 3.0\nHello\nBonjour\n\n".toList ∧
    checkTS ("2.0".toList) = false ∧ checkTS ("3.0".toList) = false := by
  refine ⟨?_, by decide, by decide⟩
  rw [doWork_example, writeSrt_example]

/-- C7 amended.  On the subtitle-composition path every timestamp is
rendered exactly as `HH:MM:SS,mmm` (zero-padded fields, comma separator)
whatever separator was accepted on input; the aligned-record writer
instead interpolates the raw float seconds values via `%s`, so its output
is not in the timestamp format. -/
theorem c7_amended :
    (∀ m : Nat, checkTS (timedelta_to_srt_timestamp ⟨(m : Int) * 1000⟩) =
      true) ∧
    writeSrt (doWork [exampleFirstSub] [exampleSecondSub]) =
      natDigits 1 ++ '\n' :: pyFloatStr 2 ++
      ' ' :: '-' :: '-' :: '>' :: ' ' :: pyFloatStr 3 ++
      '\n' :: "Hello".toList ++ '\n' :: "Bonjour".toList ++
      '\n' :: '\n' :: [] := by
  constructor
  · exact checkTS_format
  · rw [doWork_example, writeSrt, writeSrtRows, writeSrtRows, writeSrtLine]
    simp

/-! ### Sanitizer / composer (sort_and_reindex, to_srt, compose)

The source renamed the `Subtitle` attributes (`index_`, `start_ts_`,
`contents_`, ...) but `sort_and_reindex` still copies entries with
`Subtitle(**vars(subtitle))` and the first skip condition and `to_srt`
still read `sub.content`.  Both lookups fail on every `Subtitle` the
class can construct, so these functions raise as soon as they touch a
subtitle; the models below make the two failing operations explicit and
keep the surrounding control flow faithful. -/

/-- The Python exceptions raised by the attribute-renaming mismatches. -/
inductive PyError where
  | typeError : PyError
  | attributeError : PyError
deriving DecidableEq, Repr

/-- The lookup `sub.content`: `__init__` stores the text under
`contents_` and the class defines no `content` attribute or property, so
CPython raises `AttributeError` for every instance. -/
def Subtitle.contentAttr {τ : Type} (_ : Subtitle τ) :
    Except PyError (List Char) :=
  .error .attributeError

/-- `Subtitle(**vars(subtitle))`: `vars` yields the keys `index_`,
`start_ts_`, `start_timedelta_`, `end_ts_`, `end_timedelta_`,
`contents_`, `proprietary`, while `__init__` accepts `index`, `content`,
`start`, `start_timedelta`, `end`, `end_timedelta`, `proprietary`; the
call raises `TypeError` (unexpected keyword argument) for every
instance. -/
def subtitleFromVars {τ : Type} (_ : Subtitle τ) :
    Except PyError (Subtitle τ) :=
  .error .typeError

/-- Python whitespace for `str.strip()`. -/
def isPySpace (c : Char) : Bool :=
  c = ' ' || c = '\t' || c = '\n' || c = '\r' || c = '\x0b' || c = '\x0c'

/-- Python `str.strip()`. -/
def pyStrip (l : List Char) : List Char :=
  ((l.dropWhile isPySpace).reverse.dropWhile isPySpace).reverse

/-- CPython 2 comparison of a `str` with a `timedelta` falls back to
comparing the type names; `"str" < "timedelta"` lexicographically, so
`sub.start_ts_ < ZERO_TIMEDELTA` is `True` for the string-valued
timestamps `parse` stores.  (Unreachable: the first skip condition raises
before this one is evaluated.) -/
def pyStrLtTimedelta : Bool := true

/-- Python 2 lexicographic string comparison (strict less-than). -/
def listCharLt : List Char → List Char → Bool
  | [], [] => false
  | [], _ :: _ => true
  | _ :: _, [] => false
  | a :: as, b :: bs =>
    if a < b then true else if b < a then false else listCharLt as bs

/-- `Subtitle.__lt__`: start timestamp, ties broken by end timestamp
(for the string-valued timestamps `parse` stores, Python 2 compares the
strings lexicographically). -/
def subtitleLt (a b : Subtitle (List Char)) : Bool :=
  listCharLt a.start_ts_ b.start_ts_ ||
    (a.start_ts_ == b.start_ts_ && listCharLt a.end_ts_ b.end_ts_)

/-- Stable insertion used to model Python `sorted` (which compares only
with `__lt__` and is stable). -/
def insertStable {α : Type} (lt : α → α → Bool) (x : α) :
    List α → List α
  | [] => [x]
  | y :: ys => if lt x y then x :: y :: ys else y :: insertStable lt x ys

/-- Python `sorted`, modelled as a stable insertion sort over `lt`. -/
def pySorted {α : Type} (lt : α → α → Bool) (l : List α) : List α :=
  l.foldl (fun acc x => insertStable lt x acc) []

/-- `_should_skip_sub` over `SUBTITLE_SKIP_CONDITIONS`: returns the
warning message of the first matching condition, but the first condition
(`not sub.content.strip()`) already raises `AttributeError` on every
subtitle. -/
def should_skip_sub (s : Subtitle (List Char)) :
    Except PyError (Option (List Char)) :=
  match s.contentAttr with
  | .error e => .error e
  | .ok c =>
    if (pyStrip c).isEmpty then .ok (some ("No content".toList))
    else if pyStrLtTimedelta then
      .ok (some ("Start time < 0 seconds".toList))
    else if !(listCharLt s.start_ts_ s.end_ts_) then
      .ok (some ("Subtitle start time >= end time".toList))
    else .ok none

/-- The generator body of `sort_and_reindex`: walk the sorted subtitles
with `sub_num` counting from `start_index`, copy the entry via
`Subtitle(**vars(...))` unless `in_place`, skip (with the skip counter)
when `_should_skip_sub` says so, and emit the survivor with index
`sub_num - skipped_subs`.  Errors that the Python generator would raise
at that point of the iteration abort the whole modelled run. -/
def sortAndReindexGo (in_place : Bool) :
    List (Subtitle (List Char)) → Int → Nat →
      Except PyError (List (Subtitle (List Char)))
  | [], _, _ => .ok []
  | sub :: rest, sub_num, skipped =>
    match (if in_place then .ok sub else subtitleFromVars sub) with
    | .error e => .error e
    | .ok subtitle =>
      match should_skip_sub subtitle with
      | .error e => .error e
      | .ok (some _) =>
        sortAndReindexGo in_place rest (sub_num + 1) (skipped + 1)
      | .ok none =>
        match sortAndReindexGo in_place rest (sub_num + 1) skipped with
        | .error e => .error e
        | .ok tl =>
          .ok ({ subtitle with index_ := sub_num - (skipped : Int) } :: tl)

/-- `sort_and_reindex` from the source. -/
def sort_and_reindex (subtitles : List (Subtitle (List Char)))
    (start_index : Int) (in_place : Bool) :
    Except PyError (List (Subtitle (List Char))) :=
  sortAndReindexGo in_place (pySorted subtitleLt subtitles) start_index 0

/-- `Subtitle.to_srt`: its first statement,
`output_content = self.content`, raises `AttributeError` on every
subtitle, so the rest of the method (proprietary spacing, strict
legalization via `make_legal_content`, eol replacement, and the template
fill — whose `timedelta_to_srt_timestamp(self.start_ts_)` would itself
raise on the string-valued timestamp) is unreachable. -/
def to_srt (s : Subtitle (List Char)) (_strict : Bool)
    (_eol : Option (List Char)) : Except PyError (List Char) :=
  match s.contentAttr with
  | .error e => .error e
  | .ok _ => .error .attributeError

/-- `compose` from the source: optionally sort-and-reindex (always with
`in_place=False`), then join the `to_srt` blocks. -/
def compose (subtitles : List (Subtitle (List Char))) (reindex : Bool)
    (start_index : Int) (strict : Bool) (eol : Option (List Char)) :
    Except PyError (List Char) :=
  match (if reindex then sort_and_reindex subtitles start_index false
         else .ok subtitles) with
  | .error e => .error e
  | .ok subs =>
    match subs.mapM (fun s => to_srt s strict eol) with
    | .error e => .error e
    | .ok blocks => .ok blocks.flatten

/-- A perfectly valid subtitle (non-blank content, start before end,
non-negative times), as produced by the block parser. -/
def validSubA : Subtitle (List Char) :=
  ⟨7, "00:00:01,000".toList, ⟨1000000⟩, "00:00:02,000".toList,
    ⟨2000000⟩, "hello world".toList, some []⟩

/-- A second valid subtitle, used as the C5 failing input. -/
def validSubB : Subtitle (List Char) :=
  ⟨3, "00:00:05,500".toList, ⟨5500000⟩, "00:00:07,000".toList,
    ⟨7000000⟩, "good evening".toList, some []⟩

/-- C4 (code bug).  On the single perfectly valid subtitle, the
sanitizer does not produce any output: with the default
`in_place=False` it raises `TypeError` from `Subtitle(**vars(...))`, and
with `in_place=True` it raises `AttributeError` from the `sub.content`
lookup of the first skip condition — no subtitle is ever sanitized,
sorted or reindexed, contradicting the documented behaviour. -/
theorem c4_sanitizer_crashes :
    sort_and_reindex [validSubA] 1 false = .error .typeError ∧
    sort_and_reindex [validSubA] 1 true = .error .attributeError ∧
    sort_and_reindex [] 1 false = .ok [] := by
  refine ⟨by decide, by decide, by decide⟩

/-- C5 (code bug).  `sort_and_reindex` with `in_place=False` (the
default) does not succeed on a nonempty input: it raises `TypeError` at
the first element, and `in_place=True` raises a different exception
(`AttributeError`), so the two modes do not yield identical values
either. -/
theorem c5_in_place_modes_crash :
    sort_and_reindex [validSubB] 1 false = .error .typeError ∧
    sort_and_reindex [validSubB] 1 true = .error .attributeError := by
  refine ⟨by decide, by decide⟩

/-- C6 (code bug).  `compose` on a sanitized single valid subtitle does
not return text: with default `reindex=True` it raises `TypeError`
inside `sort_and_reindex`, and even with `reindex=False` it raises
`AttributeError` at `self.content` in `to_srt` — so
`parse(compose(seq))` never gets a composed text to parse. -/
theorem c6_compose_crashes :
    compose [validSubA] true 1 true none = .error .typeError ∧
    compose [validSubA] false 1 true none = .error .attributeError := by
  refine ⟨by decide, by decide⟩

end SrtRepo
